import Mathlib

/-!
Verification development for the Corelight processor of the gravwell
repository: the JSON-to-TSV transcoder in the `processors` package
(`CorelightLoadConfig`, `NewCorelight`, `init`, `Process`, `processLine`,
`process`, `getTagTs`, `emitLine`, `tagHeaders`).

Modelling conventions, stated once here:
- Byte payloads (`[]byte`) are modelled as `List Char`; the only byte the
  code inspects is the ASCII brace searched by `bytes.IndexByte`, which in
  UTF-8 occurs exactly as the character it encodes.
- `time.Time` values are modelled as `Int` nanoseconds since the Unix
  epoch (the only observations the code makes are `UnixNano` and the
  conversion `entry.FromStandard`, modelled as the identity).
- JSON numbers, which `encoding/json` decodes into `float64`, are
  modelled as exact rationals.  `fmt` renderings of those numbers
  (`%.6f`, `%d` of `int(f64)`, `%.5f`) are modelled as exact decimal
  renderings; the float64 rounding of the source can perturb final digits
  for magnitudes beyond 2^53, but every theorem below depends only on the
  sign/integer-part/point/fixed-fraction layout, which both share.
- The external collaborators that are not code of this repository
  (`encoding/json.Unmarshal`, `time.Parse` with `time.RFC3339Nano`, the
  `Tagger` collaborator, and the `config.VariableConfig.MapTo` decoding
  step) are universally quantified function parameters; concrete
  instantiations in witnesses and counterexamples mirror the genuine
  behaviour of those libraries on the exhibited inputs.
-/

/-- Fuel-indexed worker for `natDigits`; structural recursion on the fuel
keeps the definition kernel-reducible.  One unit of fuel is consumed per
decimal digit, so any fuel of at least the digit count gives the digits of
`n`, most significant first. -/
def natDigitsF : Nat → Nat → List Char
  | 0, _ => []
  | Nat.succ fuel, n =>
      if n < 10 then [Nat.digitChar n]
      else natDigitsF fuel (n / 10) ++ [Nat.digitChar (n % 10)]

/-- Decimal digits of a natural number, most significant first; models the
digit stream produced by Go's `%d` formatting of a non-negative value
(`n + 1` always exceeds the digit count of `n`). -/
def natDigits (n : Nat) : List Char := natDigitsF (n + 1) n

/-- Go `%d` of a (signed) integer: optional minus sign then the digits. -/
def intDecimal (i : Int) : List Char :=
  if i < 0 then '-' :: natDigits i.natAbs else natDigits i.natAbs

/-- Left-pad the decimal digits of `n` with zeros to width `w`; used for
the fixed-width fractional parts of `%.6f` and `%.5f`. -/
def padZero (w : Nat) (n : Nat) : List Char :=
  List.replicate (w - (natDigits n).length) '0' ++ natDigits n

/-- Model of `fmt.Fprintf(bb, "%.6f", float64(ts.UnixNano())/1000000000.0)`
from `emitLine`: epoch seconds with exactly six digits after the decimal
point, computed from the nanosecond timestamp. -/
def formatEpoch6 (ns : Int) : List Char :=
  let us := (ns.natAbs + 500) / 1000
  (if ns < 0 then ['-'] else []) ++
    natDigits (us / 1000000) ++ '.' :: padZero 6 (us % 1000000)

/-- Model of `fmt.Fprintf(bb, "%.5f", f64)` from `emitLine`: the rational
value rendered with exactly five digits after the decimal point. -/
def formatFixed5 (q : ℚ) : List Char :=
  let scaled := (q.num.natAbs * 100000 * 2 + q.den) / (q.den * 2)
  (if q.num < 0 then ['-'] else []) ++
    natDigits (scaled / 100000) ++ '.' :: padZero 5 (scaled % 100000)

/-- Split a character list at every occurrence of `sep`, keeping empty
pieces; the single-separator case of Go's `strings.Split`. -/
def splitChar (sep : Char) : List Char → List (List Char)
  | [] => [[]]
  | c :: rest =>
      if c = sep then [] :: splitChar sep rest
      else
        match splitChar sep rest with
        | [] => [[c]]
        | h :: t => (c :: h) :: t

/-- Model of `strings.Split(v, ",")` as used by `init` on the `tagHeaders`
values. -/
def splitOnComma (s : String) : List String :=
  (splitChar ',' s.toList).map String.mk

/-- First-match association-list lookup; models lookup in a Go
`map[string]V` (whose keys are unique, so first match is the match). -/
def lookupStr {α : Type} : List (String × α) → String → Option α
  | [], _ => none
  | (k, v) :: rest, key => if k = key then some v else lookupStr rest key

/- Generic JSON value as decoded by `encoding/json` into `interface{}`:
the tagged variants are float64 numbers, strings, booleans, null, arrays
and string-keyed objects.  The element and field lists are mutually
inductive rather than `List`-nested so that the `%v` renderer below is
plain structural recursion. -/
mutual
inductive JValue : Type
  | num (q : ℚ)
  | str (s : String)
  | bool (b : Bool)
  | null
  | arr (elems : JArr)
  | obj (fields : JFields)

inductive JArr : Type
  | nil
  | cons (v : JValue) (rest : JArr)

inductive JFields : Type
  | nil
  | cons (k : String) (v : JValue) (rest : JFields)
end

/-- The decoded `map[string]interface{}` of `processLine`. -/
abbrev JObj : Type := List (String × JValue)

/-- Insert one pair into a first-component-sorted association list. -/
def insertByKey {α : Type} (kv : String × α) : List (String × α) → List (String × α)
  | [] => [kv]
  | h :: t => if kv.1 ≤ h.1 then kv :: h :: t else h :: insertByKey kv t

/-- Sort an association list by key; Go's `fmt` prints maps with keys in
sorted order. -/
def sortByKey {α : Type} : List (String × α) → List (String × α)
  | [] => []
  | h :: t => insertByKey h (sortByKey t)

/-- Trailing-zero trimming used in the nested-number rendering below. -/
def trimZeros (l : List Char) : List Char :=
  (l.reverse.dropWhile (fun c => c = '0')).reverse

/-- Go `%v` of a float64 uses the shortest decimal form (`%g`).  Nested
numbers inside arrays or objects are the only values rendered through this
function (top-level numbers take the `%d`/`%.5f` branches of `emitLine`);
it renders the integer form when the value is integral and a
trailing-zero-trimmed five-digit fixed form otherwise.  No theorem below
depends on this corner. -/
def goNumString (q : ℚ) : String :=
  if q.den = 1 then String.mk (intDecimal q.num)
  else
    let t := trimZeros (formatFixed5 q)
    String.mk (if t.getLast? = some '.' then t.dropLast else t)

/- Model of Go `fmt.Fprintf(bb, "\t%v", v)`'s value rendering for decoded
JSON values: strings print raw, booleans as `true`/`false`, the nil
interface as `<nil>`, slices bracketed and space-separated, maps as
`map[k:v ...]` with keys sorted (`goMapEntries` renders the fields first;
sorting the rendered pairs by key equals Go's render-in-sorted-key-order
because a field's rendering does not depend on its position). -/
mutual
def goValueString : JValue → String
  | JValue.num q => goNumString q
  | JValue.str s => s
  | JValue.bool b => if b then ("true") else ("false")
  | JValue.null => ("<nil>")
  | JValue.arr elems =>
      ("[") ++ String.intercalate (" ") (goArrStrings elems) ++ ("]")
  | JValue.obj fields =>
      ("map[") ++ String.intercalate (" ")
        ((sortByKey (goMapEntries fields)).map
          (fun kv => kv.1 ++ (":") ++ kv.2)) ++ ("]")

def goArrStrings : JArr → List String
  | JArr.nil => []
  | JArr.cons v rest => goValueString v :: goArrStrings rest

def goMapEntries : JFields → List (String × String)
  | JFields.nil => []
  | JFields.cons k v rest => (k, goValueString v) :: goMapEntries rest
end

/-- The `tagHeaders` table of the source, transcribed verbatim in its
source listing order: log category name to comma-separated field list. -/
def tagHeaders : List (String × String) := [
  ("conn", "ts,uid,id.orig_h,id.orig_p,id.resp_h,id.resp_p,proto,service,duration,id.orig_ip_bytes,id.resp_ip_bytes,conn_state,local_orig,local_resp,missed_bytes,history,id.orig_pkts,id.orig_ip_bytes,id.resp_pkts,id.resp_ip_bytes,tunnel_parents,vlan"),
  ("dhcp", "ts,uids,client_addr,server_addr,mac,host_name,client_fqdn,domain,requested_addr,assigned_addr,lease_time,client_message,server_message,msg_types,duration"),
  ("dns", "ts,uid,id.orig_h,id.orig_p,id.resp_h,id.resp_p,proto,trans_id,rtt,query,qclass,qclass_name,qtype,qtype_name,rcode,rcode_name,AA,TC,RD,RA,Z,answers,TTLs,rejected"),
  ("files", "ts,fuid,tx_hosts,rx_hosts,conn_uids,source,depth,analyzers,mime_type,filename,duration,local_orig,is_orig,seen_bytes,total_bytes,missing_bytes,overflow_bytes,timedout,parent_fuid,md5,sha1,sha256,extracted,extracted_cutoff,extracted_size"),
  ("http", "ts,uid,id.orig_h,id.orig_p,id.resp_h,id.resp_p,trans_depth,method,host,uri,referrer,version,user_agent,id.origin,request_body_len,id.response_body_len,status_code,status_msg,info_code,info_msg,tags,username,password,proxied,id.orig_fuids,id.orig_filenames,id.orig_mime_types,id.resp_fuids,id.resp_filenames,id.resp_mime_types"),
  ("ssl", "ts,uid,id.orig_h,id.orig_p,id.resp_h,id.resp_p,version,cipher,curve,server_name,resumed,last_alert,next_protocol,established,cert_chain_fuids,client_cert_chain_fuids,subject,issuer,client_subject,client_issuer,validation_status"),
  ("weird", "ts,uid,id.orig_h,id.orig_p,id.resp_h,id.resp_p,name,addl,notice,peer"),
  ("x509", "ts,uid,version,serial,subject,issuer,not_valid_before,not_valid_after,key_alg,sig_alg,key_type,key_length,exponent,curve,dns,uri,email,ip,ca,path_len"),
  ("ssh", "ts,uid,id.orig_h,id.orig_p,id.resp_h,id.resp_p,version,auth_success,auth_attempts,direction,client,server,cipher_alg,mac_alg,compression_alg,kex_alg,host_key_alg,host_key,inferences"),
  ("sip", "ts,uid,id.orig_h,id.orig_p,id.resp_h,id.resp_p,trans_depth,method,uri,date,request_fromrequest_to,id.response_from,id.response_to,reply_to,call_id,seq,subject,request_path,id.response_path,user_agent,status_code,status_msg,warning,request_body_len,id.response_body_len,content_type"),
  ("dpd", "ts,uid,id.orig_h,id.orig_p,id.resp_h,id.resp_p,proto,analyzer,failure_reason,packet_segment"),
  ("snmp", "ts,uid,id.orig_h,id.orig_p,id.resp_h,id.resp_p,duration,version,community,get_requests,get_bulk_requests,get_responses,set_requests,display_string,up_since"),
  ("smtp", "ts,uid,id.orig_h,id.orig_p,id.resp_h,id.resp_p,trans_depth,helo,mailfrom"),
  ("pe", "ts,uid,machine,compile_ts,os,subsystem,is_exe,is_64bit,uses_aslr,uses_dep"),
  ("tunnel", "ts,uid,id.orig_h,id.orig_p,id.resp_h,id.resp_p,tunnel_type,action"),
  ("socks", "ts,uid,id.orig_h,id.orig_p,id.resp_h,id.resp_p,version,user,password,status,request,request_host,request_name,request_port,bound_host,bound_name"),
  ("software", "ts,host,host_port,software_type,name,major,minor,minor2,minor3,addl,unparsed_version"),
  ("syslog", "ts,uid,id.orig_h,id.orig_p,id.resp_h,id.resp_p,proto,facility,severity,message"),
  ("rfb", "ts,uid,id.orig_h,id.orig_p,id.resp_h,id.resp_p,client_major_version,client_minor_version,server_major_version,server_minor_version,authentication_method,auth,share_flag,desktop_name,width,height"),
  ("radius", "ts,uid,id.orig_h,id.orig_p,id.resp_h,id.resp_p,username,mac,remote_ip,connect_info,result,logged"),
  ("rdp", "ts,uid,id.orig_h,id.orig_p,id.resp_h,id.resp_p,cookie,result,security_protocol,client_build,client_name,client_dig_product_id,desktop_width,desktop_height,requested_color_depth,cert_type,cert_count,cert_permanent,encryption_level,encryption_method"),
  ("ftp", "ts,uid,id.orig_h,id.orig_p,id.resp_h,id.resp_p,user,password,command,arg,mime_type,file_size,reply_code,reply_msg,data_channel.passive,data_channel.orig_h,data_channel.resp_h,data_channel.resp_p,fuid"),
  ("intel", "ts,uid,id.orig_h,id.orig_p,id.resp_h,id.resp_p,indicator,indicator_type,seen_where,seen_node,matched,sources,fuid,file_mime_type,file_desc"),
  ("irc", "ts,uid,id.orig_h,id.orig_p,id.resp_h,id.resp_p,nick,user,command,value,additional_info,dcc_file_name,dcc_file_size,dcc_mime_type,fuid"),
  ("kerberos", "ts,uid,id.orig_h,id.orig_p,id.resp_h,id.resp_p,request_type,client,service,success,error_msg,from,till,cipher,forwardable,renewable,client_cert,client_cert_fuid,server_cert_subject,server_cert_fuid"),
  ("mysql", "ts,uid,id.orig_h,id.orig_p,id.resp_h,id.resp_p,cmd,arg,success,rows,id.response"),
  ("modbus", "ts,uid,id.orig_h,id.orig_p,id.resp_h,id.resp_p,func,exception"),
  ("notice", "ts,uid,id.orig_h,id.orig_p,id.resp_h,id.resp_p,fuid,mime,desc,proto,note,msg,sub,src,dst,p,n,peer_descr,actions,suppress_for,dropped,destination_country_code,destination_region,destination_city,destination_latitude,destination_longitude"),
  ("signature", "ts,uid,id.orig_h,id.orig_p,id.resp_h,id.resp_p,note,sig_id,event_msg,sub_msg,sig_count,host_count"),
  ("smb_mapping", "ts,uid,id.orig_h,id.orig_p,id.resp_h,id.resp_p,path,service,native_file_system,share_type"),
  ("smb_files", "ts,uid,id.orig_h,id.orig_p,id.resp_h,id.resp_p,fuid,action,path,name,size,prev_name,modified,accessed,created,changed"),
  ("zeekdnp3", "ts,uid,id,fc_request,fc_reply,iin")]

/-- The source's `defaultTag` package variable: a `var` of type `string`
left at its zero value, the empty string. -/
def defaultTag : String := ""

/-- The source's `defaultPrefix = "zeek"` (renamed here because of
lexical constraints on the suffix of the original identifier). -/
def defaultPfx : String := "zeek"

/-- `CorelightConfig`; the Go field is named `Prefix` (renamed here for
the same lexical reason as `defaultPfx`). -/
structure CorelightConfig where
  pfx : String
deriving DecidableEq

/-- The post-`MapTo` step of `CorelightLoadConfig`: the external
`vc.MapTo` decoding (not code of this repository) is modelled as the
already-decoded `CorelightConfig` argument; the function then defaults an
empty Prefix to `defaultPrefix`. -/
def CorelightLoadConfig (c : CorelightConfig) : CorelightConfig :=
  if c.pfx = "" then { pfx := defaultPfx } else c

/-- The `Corelight` processor state after `init`: the (defaulted) prefix,
the `tagFields` table (tag name to field list) and the `tags` table (tag
name to negotiated numeric tag). -/
structure Corelight where
  pfx : String
  tagFields : List (String × List String)
  tags : List (String × Nat)
deriving DecidableEq

/-- The loop body of `(*Corelight).init` over the `tagHeaders` entries:
for each category, derive `tagName = prefix + k`, record the split field
list, and negotiate a numeric tag, aborting on the first negotiation
error.  (Go iterates map keys in unspecified order and fills the partially
built maps before a failing negotiation; both are unobservable through
`NewCorelight`, which discards the struct on error.) -/
def buildTables (p : String) (tagger : String → Except String Nat) :
    List (String × String) →
      Except String (List (String × List String) × List (String × Nat))
  | [] => Except.ok ([], [])
  | kv :: rest =>
      match tagger (p ++ kv.1) with
      | Except.error e => Except.error e
      | Except.ok tv =>
          match buildTables p tagger rest with
          | Except.error e => Except.error e
          | Except.ok (tf, tg) =>
              Except.ok ((p ++ kv.1, splitOnComma kv.2) :: tf,
                         (p ++ kv.1, tv) :: tg)

/-- `NewCorelight`: embeds the config, runs `init` (which defaults the
prefix and builds both tables), and returns the constructed processor or
the first negotiation error. -/
def NewCorelight (cfg : CorelightConfig) (tagger : String → Except String Nat) :
    Except String Corelight :=
  let p := if cfg.pfx = "" then defaultPfx else cfg.pfx
  match buildTables p tagger tagHeaders with
  | Except.error e => Except.error e
  | Except.ok (tf, tg) => Except.ok ⟨p, tf, tg⟩

/-- `entry.Entry` as the processor observes it: numeric tag, timestamp
(nanoseconds), byte payload. -/
structure Entry where
  Tag : Nat
  TS : Int
  Data : List Char
deriving DecidableEq

/-- Model of `encoding/json.Unmarshal` into `map[string]interface{}`
(library code outside this repository): `none` is a decode error. -/
abbrev Decoder : Type := List Char → Option JObj

/-- Model of `time.Parse(time.RFC3339Nano, ·)` (library code outside this
repository): `none` is a parse error, `some` the parsed instant in
nanoseconds. -/
abbrev TSParse : Type := String → Option Int

/-- Lookup in the decoded JSON object, as `mp[h]` in Go. -/
def jlookup (mp : JObj) (k : String) : Option JValue := lookupStr mp k

/-- `(*Corelight).getTagTs`: requires string values under `_path` and
`ts` and an RFC3339Nano-parseable timestamp; on success the tag is
`c.Prefix + _path` value.  All failure paths return the zero values with
`ok = false` (Go's zero `time.Time` is modelled as `0`; no caller
consumes the timestamp of a failed extraction). -/
def getTagTs (p : String) (pts : TSParse) (mp : JObj) : String × Int × Bool :=
  match jlookup mp ("_path") with
  | none => (defaultTag, 0, false)
  | some tagv =>
      match jlookup mp ("ts") with
      | none => (defaultTag, 0, false)
      | some tsv =>
          match tagv with
          | JValue.str tagval =>
              match tsv with
              | JValue.str tss =>
                  match pts tss with
                  | none => (defaultTag, 0, false)
                  | some t => (p ++ tagval, t, true)
              | _ => (defaultTag, 0, false)
          | _ => (defaultTag, 0, false)

/-- One output cell of `emitLine`'s loop for field name `h`: `-` when the
field is absent; for a float64 with zero fractional part (`math.Modf`)
the plain `%d` integer; for other float64s the `%.5f` fixed form; for any
other value the `%v` rendering. -/
def emitCell (mp : JObj) (h : String) : List Char :=
  match jlookup mp h with
  | some (JValue.num q) =>
      if q.den = 1 then intDecimal q.num else formatFixed5 q
  | some v => (goValueString v).toList
  | none => ['-']

/-- `emitLine`: the `%.6f` epoch column followed, for every header after
the first (`headers[1:]`, the timestamp placeholder is always skipped),
by one tab and that field's cell; the named return `ok` is assigned
`true` unconditionally on the only return path. -/
def emitLine (ts : Int) (headers : List String) (mp : JObj) :
    List Char × Bool :=
  (formatEpoch6 ts ++
    ((headers.drop 1).map (fun h => '\t' :: emitCell mp h)).flatten, true)

/-- `(*Corelight).process`: rejects an empty decoded map, extracts
tag/timestamp, looks up the field list, emits the line; every failure
branch resets the tag to `defaultTag` and returns the original bytes
`og`. -/
def process (c : Corelight) (pts : TSParse) (mp : JObj) (og : List Char) :
    String × Int × List Char :=
  if mp.isEmpty then (defaultTag, 0, og)
  else
    match getTagTs c.pfx pts mp with
    | (_, _, false) => (defaultTag, 0, og)
    | (tag, t, true) =>
        match lookupStr c.tagFields tag with
        | none => (defaultTag, t, og)
        | some headers =>
            match emitLine t headers mp with
            | (line, true) => (tag, t, line)
            | (_, false) => (defaultTag, t, og)

/-- `(*Corelight).processLine`: search for the first `{` byte
(`bytes.IndexByte`), fail with the default tag when absent, otherwise
decode the payload from that offset and hand the map to `process`.  Note
that on an unmarshal error the returned line is the trimmed slice
`line[idx:]`, not the original input — the caller only consumes it when
the tag is not the default. -/
def processLine (c : Corelight) (unm : Decoder) (pts : TSParse)
    (s : List Char) : String × Int × List Char :=
  if ('{' ∈ s) then
    let t := s.dropWhile (fun ch => ch ≠ '{')
    match unm t with
    | none => (defaultTag, 0, t)
    | some mp => process c pts mp t
  else (defaultTag, 0, s)

/-- The per-entry body of `(*Corelight).Process`'s loop: skip nil entries
and empty payloads; rewrite tag, timestamp and payload only when
`processLine` produced a non-default tag that resolves in the `tags`
table (`entry.FromStandard` is the identity in the nanosecond model). -/
def processEnt (c : Corelight) (unm : Decoder) (pts : TSParse) :
    Option Entry → Option Entry
  | none => none
  | some ent =>
      if ent.Data.isEmpty then some ent
      else
        match processLine c unm pts ent.Data with
        | (tag, t, line) =>
            if tag ≠ defaultTag then
              match lookupStr c.tags tag with
              | some tv => some { Tag := tv, TS := t, Data := line }
              | none => some ent
            else some ent

/-- `(*Corelight).Process`: returns the same slice with each entry
processed in place, and a `nil` error on every path (the empty-batch
early return is the `ents = []` instance of the same map). -/
def Process (c : Corelight) (unm : Decoder) (pts : TSParse)
    (ents : List (Option Entry)) : List (Option Entry) × Option String :=
  (ents.map (processEnt c unm pts), none)

/-! Spec-side observations used by the claims. -/

/-- Number of tab-separated columns of a single line: one more than the
number of tab bytes. -/
def tabColumns (l : List Char) : Nat := l.count '\t' + 1

/-- A rendering consisting of a non-empty dot-free head followed by a
decimal point and exactly `w` digits: the shape of a `%.Nf` output. -/
def fracDigits (w : Nat) (l : List Char) : Prop :=
  ∃ a b : List Char, l = a ++ '.' :: b ∧ a ≠ [] ∧ '.' ∉ a ∧
    b.length = w ∧ ∀ c ∈ b, c.isDigit = true

/-- The table `init` builds into `c.tagFields` for a given prefix. -/
def corelightFields (p : String) : List (String × List String) :=
  tagHeaders.map (fun kv => (p ++ kv.1, splitOnComma kv.2))

/-- The numeric tag a (total) view of the tagger assigns; used to state
what `init` builds into `c.tags`. -/
def tagValue (tagger : String → Except String Nat) (tn : String) : Nat :=
  match tagger tn with
  | Except.ok n => n
  | Except.error _ => 0

/-- The table `init` builds into `c.tags` for a prefix and tagger. -/
def corelightTags (p : String) (tagger : String → Except String Nat) :
    List (String × Nat) :=
  tagHeaders.map (fun kv => (p ++ kv.1, tagValue tagger (p ++ kv.1)))

/-! Digit and shape lemmas for the numeric renderings. -/

theorem natDigitsF_digits {fuel n : Nat} {c : Char}
    (h : c ∈ natDigitsF fuel n) : c.isDigit = true := by
  induction fuel generalizing n with
  | zero => exact absurd h (by simp [natDigitsF])
  | succ fuel ih =>
      by_cases h10 : n < 10
      · simp [natDigitsF, h10] at h
        subst h
        have : ∀ d : Nat, d < 10 → (Nat.digitChar d).isDigit = true := by decide
        exact this n h10
      · simp [natDigitsF, h10] at h
        rcases h with h | h
        · exact ih h
        · subst h
          have : ∀ d : Nat, d < 10 → (Nat.digitChar d).isDigit = true := by decide
          exact this (n % 10) (Nat.mod_lt _ (by omega))

theorem natDigits_digits {n : Nat} {c : Char}
    (h : c ∈ natDigits n) : c.isDigit = true :=
  natDigitsF_digits h

theorem natDigits_ne_nil (n : Nat) : natDigits n ≠ [] := by
  unfold natDigits natDigitsF
  by_cases h10 : n < 10 <;> simp [h10]

theorem natDigitsF_length_le {fuel n k : Nat} (hn : n < 10 ^ k) (hk : 1 ≤ k) :
    (natDigitsF fuel n).length ≤ k := by
  induction fuel generalizing n k with
  | zero => simp [natDigitsF]
  | succ fuel ih =>
      by_cases h10 : n < 10
      · simp [natDigitsF, h10]
        omega
      · have hk2 : 2 ≤ k := by
          by_contra hlt
          have hk1 : k = 1 := by omega
          subst hk1
          simp at hn
          omega
        have hdiv : n / 10 < 10 ^ (k - 1) := by
          have h1 : 10 ^ k = 10 ^ (k - 1) * 10 := by
            have : k - 1 + 1 = k := by omega
            calc 10 ^ k = 10 ^ (k - 1 + 1) := by rw [this]
              _ = 10 ^ (k - 1) * 10 := by rw [pow_succ]
          exact Nat.div_lt_of_lt_mul (by omega)
        have := ih hdiv (by omega)
        simp [natDigitsF, h10]
        omega

theorem padZero_length {w n : Nat} (h : n < 10 ^ w) (hw : 1 ≤ w) :
    (padZero w n).length = w := by
  have hle : (natDigits n).length ≤ w := natDigitsF_length_le h hw
  simp [padZero]
  omega

theorem padZero_digits {w n : Nat} {c : Char} (h : c ∈ padZero w n) :
    c.isDigit = true := by
  simp [padZero] at h
  rcases h with h | h
  · simp [h.2]
  · exact natDigits_digits h

theorem intDecimal_chars {i : Int} {c : Char} (h : c ∈ intDecimal i) :
    c = '-' ∨ c.isDigit = true := by
  by_cases hneg : i < 0
  · simp [intDecimal, hneg] at h
    rcases h with h | h
    · exact Or.inl h
    · exact Or.inr (natDigits_digits h)
  · simp [intDecimal, hneg] at h
    exact Or.inr (natDigits_digits h)

theorem formatEpoch6_shape (ns : Int) : fracDigits 6 (formatEpoch6 ns) := by
  refine ⟨(if ns < 0 then ['-'] else []) ++ natDigits ((ns.natAbs + 500) / 1000 / 1000000),
    padZero 6 ((ns.natAbs + 500) / 1000 % 1000000), by simp [formatEpoch6], ?_, ?_, ?_, ?_⟩
  · intro hnil
    rcases List.append_eq_nil.mp hnil with ⟨_, h2⟩
    exact natDigits_ne_nil _ h2
  · intro hmem
    rcases List.mem_append.mp hmem with h | h
    · by_cases hneg : ns < 0 <;> simp [hneg] at h
    · have := natDigits_digits h
      simp at this
  · exact padZero_length (Nat.mod_lt _ (by omega)) (by omega)
  · intro c hc
    exact padZero_digits hc

theorem formatFixed5_shape (q : ℚ) : fracDigits 5 (formatFixed5 q) := by
  refine ⟨(if q.num < 0 then ['-'] else []) ++
      natDigits ((q.num.natAbs * 100000 * 2 + q.den) / (q.den * 2) / 100000),
    padZero 5 ((q.num.natAbs * 100000 * 2 + q.den) / (q.den * 2) % 100000),
    by simp [formatFixed5], ?_, ?_, ?_, ?_⟩
  · intro hnil
    rcases List.append_eq_nil.mp hnil with ⟨_, h2⟩
    exact natDigits_ne_nil _ h2
  · intro hmem
    rcases List.mem_append.mp hmem with h | h
    · by_cases hneg : q.num < 0 <;> simp [hneg] at h
    · have := natDigits_digits h
      simp at this
  · exact padZero_length (Nat.mod_lt _ (by omega)) (by omega)
  · intro c hc
    exact padZero_digits hc

theorem formatEpoch6_chars {ns : Int} {c : Char} (h : c ∈ formatEpoch6 ns) :
    c = '-' ∨ c = '.' ∨ c.isDigit = true := by
  simp only [formatEpoch6, List.mem_append, List.mem_cons] at h
  rcases h with (h | h) | h | h
  · by_cases hneg : ns < 0 <;> simp [hneg] at h
    exact Or.inl h
  · exact Or.inr (Or.inr (natDigits_digits h))
  · exact Or.inr (Or.inl h)
  · exact Or.inr (Or.inr (padZero_digits h))

theorem formatFixed5_chars {q : ℚ} {c : Char} (h : c ∈ formatFixed5 q) :
    c = '-' ∨ c = '.' ∨ c.isDigit = true := by
  simp only [formatFixed5, List.mem_append, List.mem_cons] at h
  rcases h with (h | h) | h | h
  · by_cases hneg : q.num < 0 <;> simp [hneg] at h
    exact Or.inl h
  · exact Or.inr (Or.inr (natDigits_digits h))
  · exact Or.inr (Or.inl h)
  · exact Or.inr (Or.inr (padZero_digits h))

/-! Characterizations of the initialization tables and lookups. -/

theorem String.append_left_cancel_chars {p k k' : String}
    (h : p ++ k = p ++ k') : k = k' := by
  cases p with
  | mk pd =>
      cases k with
      | mk kd =>
          cases k' with
          | mk kd' =>
              have hd : pd ++ kd = pd ++ kd' := congrArg String.data h
              have := List.append_cancel_left hd
              simp [this]

theorem buildTables_error_of_mem {p : String}
    {tagger : String → Except String Nat} {l : List (String × String)}
    {kv : String × String} {e : String}
    (hmem : kv ∈ l) (herr : tagger (p ++ kv.1) = Except.error e) :
    ∃ e', buildTables p tagger l = Except.error e' := by
  induction l with
  | nil => exact absurd hmem (by simp)
  | cons hd tl ih =>
      rcases List.mem_cons.mp hmem with heq | htl
      · subst heq
        exact ⟨e, by simp [buildTables, herr]⟩
      · match htg : tagger (p ++ hd.1) with
        | Except.error e0 => exact ⟨e0, by simp [buildTables, htg]⟩
        | Except.ok tv =>
            rcases ih htl with ⟨e', h'⟩
            exact ⟨e', by simp [buildTables, htg, h']⟩

theorem buildTables_ok_eq {p : String}
    {tagger : String → Except String Nat} {l : List (String × String)}
    {tf : List (String × List String)} {tg : List (String × Nat)}
    (h : buildTables p tagger l = Except.ok (tf, tg)) :
    tf = l.map (fun kv => (p ++ kv.1, splitOnComma kv.2)) ∧
    tg = l.map (fun kv => (p ++ kv.1, tagValue tagger (p ++ kv.1))) := by
  induction l generalizing tf tg with
  | nil =>
      simp [buildTables] at h
      simp [h.1, h.2]
  | cons hd tl ih =>
      match htg : tagger (p ++ hd.1) with
      | Except.error e0 => simp [buildTables, htg] at h
      | Except.ok tv =>
          match hrest : buildTables p tagger tl with
          | Except.error e0 => simp [buildTables, htg, hrest] at h
          | Except.ok (tf', tg') =>
              simp [buildTables, htg, hrest] at h
              rcases ih hrest with ⟨h1, h2⟩
              refine ⟨?_, ?_⟩
              · rw [← h.1, h1]
                simp
              · rw [← h.2, h2]
                simp [tagValue, htg]

theorem NewCorelight_ok_eq {cfg : CorelightConfig}
    {tagger : String → Except String Nat} {c : Corelight}
    (h : NewCorelight cfg tagger = Except.ok c) :
    c.pfx = (if cfg.pfx = "" then defaultPfx else cfg.pfx) ∧
    c.tagFields = corelightFields c.pfx ∧
    c.tags = corelightTags c.pfx tagger := by
  unfold NewCorelight at h
  dsimp only at h
  match hbt : buildTables (if cfg.pfx = "" then defaultPfx else cfg.pfx) tagger tagHeaders with
  | Except.error e0 => rw [hbt] at h; simp at h
  | Except.ok (tf, tg) =>
      rw [hbt] at h
      simp at h
      rcases buildTables_ok_eq hbt with ⟨h1, h2⟩
      subst h
      exact ⟨rfl, by simpa [corelightFields] using h1,
        by simpa [corelightTags] using h2⟩

theorem lookupStr_mapped {β α : Type} {p k : String} {v : β}
    (f : String × β → α) {l : List (String × β)}
    (hnd : (l.map Prod.fst).Nodup) (hmem : (k, v) ∈ l) :
    lookupStr (l.map (fun kv => (p ++ kv.1, f kv))) (p ++ k) = some (f (k, v)) := by
  induction l with
  | nil => exact absurd hmem (by simp)
  | cons hd tl ih =>
      simp only [List.map_cons, List.nodup_cons] at hnd
      rcases List.mem_cons.mp hmem with heq | htl
      · subst heq
        simp [lookupStr]
      · have hne : hd.1 ≠ k := by
          intro hkeq
          exact hnd.1 (by
            rw [hkeq]
            exact List.mem_map.mpr ⟨(k, v), htl, rfl⟩)
        have hne2 : ¬(p ++ hd.1 = p ++ k) := by
          intro hc
          exact hne (String.append_left_cancel_chars hc)
        simp [lookupStr, hne2]
        exact ih hnd.2 htl

theorem lookupStr_mapped_mem {β α : Type} {p tn : String}
    (f : String × β → α) {l : List (String × β)} {a : α}
    (h : lookupStr (l.map (fun kv => (p ++ kv.1, f kv))) tn = some a) :
    ∃ kv, kv ∈ l ∧ tn = p ++ kv.1 ∧ a = f kv := by
  induction l with
  | nil => simp [lookupStr] at h
  | cons hd tl ih =>
      by_cases heq : p ++ hd.1 = tn
      · refine ⟨hd, by simp, heq.symm, ?_⟩
        simp [lookupStr, heq] at h
        exact h.symm
      · simp [lookupStr, heq] at h
        rcases ih h with ⟨kv, h1, h2, h3⟩
        exact ⟨kv, by simp [h1], h2, h3⟩

theorem lookupStr_isSome_of_keys_eq {α β : Type} {l₁ : List (String × α)}
    {l₂ : List (String × β)} (hk : l₁.map Prod.fst = l₂.map Prod.fst)
    {k : String} {a : α} (h : lookupStr l₁ k = some a) :
    ∃ b, lookupStr l₂ k = some b := by
  induction l₁ generalizing l₂ with
  | nil => simp [lookupStr] at h
  | cons hd tl ih =>
      match l₂ with
      | [] => simp at hk
      | hd₂ :: tl₂ =>
          simp at hk
          by_cases heq : hd.1 = k
          · refine ⟨hd₂.2, ?_⟩
            have : hd₂.1 = k := by rw [← hk.1, heq]
            simp [lookupStr, this]
          · simp [lookupStr, heq] at h
            have hne₂ : ¬(hd₂.1 = k) := by rw [← hk.1]; exact heq
            rcases ih hk.2 h with ⟨b, hb⟩
            exact ⟨b, by simp [lookupStr, hne₂, hb]⟩

/-! Characterizations of the per-record pipeline. -/

theorem getTagTs_true_eq {p : String} {pts : TSParse} {mp : JObj}
    {tag : String} {t : Int}
    (h : getTagTs p pts mp = (tag, t, true)) :
    ∃ tagval tss, jlookup mp ("_path") = some (JValue.str tagval) ∧
      jlookup mp ("ts") = some (JValue.str tss) ∧
      pts tss = some t ∧ tag = p ++ tagval := by
  rcases h1 : jlookup mp ("_path") with _ | tagv
  · simp [getTagTs, h1, defaultTag] at h
  · rcases h2 : jlookup mp ("ts") with _ | tsv
    · simp [getTagTs, h1, h2, defaultTag] at h
    · cases tagv with
      | str tagval =>
          cases tsv with
          | str tss =>
              rcases h3 : pts tss with _ | t'
              · simp [getTagTs, h1, h2, h3, defaultTag] at h
              · simp [getTagTs, h1, h2, h3, defaultTag] at h
                refine ⟨tagval, tss, rfl, rfl, ?_, h.1.symm⟩
                rw [h3, h.2]
          | num q => simp [getTagTs, h1, h2, defaultTag] at h
          | bool b => simp [getTagTs, h1, h2, defaultTag] at h
          | null => simp [getTagTs, h1, h2, defaultTag] at h
          | arr a => simp [getTagTs, h1, h2, defaultTag] at h
          | obj o => simp [getTagTs, h1, h2, defaultTag] at h
      | num q => simp [getTagTs, h1, h2, defaultTag] at h
      | bool b => simp [getTagTs, h1, h2, defaultTag] at h
      | null => simp [getTagTs, h1, h2, defaultTag] at h
      | arr a => simp [getTagTs, h1, h2, defaultTag] at h
      | obj o => simp [getTagTs, h1, h2, defaultTag] at h

theorem process_success_eq {c : Corelight} {pts : TSParse} {mp : JObj}
    {og : List Char} {tag : String} {t : Int} {line : List Char}
    (h : process c pts mp og = (tag, t, line)) (htag : tag ≠ defaultTag) :
    mp.isEmpty = false ∧
    ∃ tagval tss headers,
      jlookup mp ("_path") = some (JValue.str tagval) ∧
      jlookup mp ("ts") = some (JValue.str tss) ∧
      pts tss = some t ∧ tag = c.pfx ++ tagval ∧
      lookupStr c.tagFields tag = some headers ∧
      line = (emitLine t headers mp).1 := by
  by_cases hemp : mp.isEmpty
  · simp [process, hemp, defaultTag] at h
    exact absurd h.1.symm htag
  · rcases hg : getTagTs c.pfx pts mp with ⟨tg, tt, ok⟩
    cases ok with
    | false =>
        simp [process, hemp, hg, defaultTag] at h
        exact absurd h.1.symm htag
    | true =>
        refine ⟨by simpa using hemp, ?_⟩
        rcases hl : lookupStr c.tagFields tg with _ | headers
        · simp [process, hemp, hg, hl, defaultTag] at h
          exact absurd h.1.symm htag
        · simp [process, hemp, hg, hl, emitLine] at h
          rcases getTagTs_true_eq hg with ⟨tagval, tss, h1, h2, h3, h4⟩
          rcases h with ⟨hA, hB, hC⟩
          subst hA hB
          exact ⟨tagval, tss, headers, h1, h2, h3, h4, hl,
            by simp [emitLine, hC]⟩

theorem processLine_success_eq {c : Corelight} {unm : Decoder} {pts : TSParse}
    {s : List Char} {tag : String} {t : Int} {line : List Char}
    (h : processLine c unm pts s = (tag, t, line)) (htag : tag ≠ defaultTag) :
    '{' ∈ s ∧ ∃ mp, unm (s.dropWhile (fun ch => ch ≠ '{')) = some mp ∧
      process c pts mp (s.dropWhile (fun ch => ch ≠ '{')) = (tag, t, line) := by
  by_cases hb : '{' ∈ s
  · refine ⟨hb, ?_⟩
    unfold processLine at h
    rw [if_pos hb] at h
    dsimp only at h
    cases hu : unm (s.dropWhile (fun ch => ch ≠ '{')) with
    | none =>
        rw [hu] at h
        simp [defaultTag] at h
        exact absurd h.1.symm htag
    | some mp =>
        rw [hu] at h
        exact ⟨mp, rfl, h⟩
  · simp [processLine, hb, defaultTag] at h
    exact absurd h.1.symm htag

theorem processEnt_unchanged {c : Corelight} {unm : Decoder} {pts : TSParse}
    {ent : Entry} (h : (processLine c unm pts ent.Data).1 = defaultTag) :
    processEnt c unm pts (some ent) = some ent := by
  unfold processEnt
  by_cases hemp : ent.Data.isEmpty
  · simp [hemp]
  · simp only [hemp, if_neg, Bool.false_eq_true, not_false_eq_true]
    match hp : processLine c unm pts ent.Data with
    | (tag, t, line) =>
        have : tag = defaultTag := by rw [← h, hp]
        simp [this]

theorem processEnt_rewrite {c : Corelight} {unm : Decoder} {pts : TSParse}
    {ent : Entry} {tag : String} {t : Int} {line : List Char} {tv : Nat}
    (hdata : ent.Data.isEmpty = false)
    (hp : processLine c unm pts ent.Data = (tag, t, line))
    (htag : tag ≠ defaultTag)
    (htv : lookupStr c.tags tag = some tv) :
    processEnt c unm pts (some ent) = some ⟨tv, t, line⟩ := by
  unfold processEnt
  simp only [hdata, Bool.false_eq_true, not_false_eq_true, if_neg]
  rw [hp]
  simp [htag, htv]

/-! Failure-direction characterizations: every silent-failure condition
drives the pipeline to the default tag. -/

theorem getTagTs_false_cases {p : String} {pts : TSParse} {mp : JObj}
    (h : jlookup mp ("_path") = none ∨ jlookup mp ("ts") = none ∨
      (∃ v, jlookup mp ("_path") = some v ∧ ∀ s, v ≠ JValue.str s) ∨
      (∃ v, jlookup mp ("ts") = some v ∧ ∀ s, v ≠ JValue.str s) ∨
      (∃ tss, jlookup mp ("ts") = some (JValue.str tss) ∧ pts tss = none)) :
    getTagTs p pts mp = (defaultTag, 0, false) := by
  rcases hpath : jlookup mp ("_path") with _ | pv
  · simp [getTagTs, hpath]
  · rcases hts : jlookup mp ("ts") with _ | tv
    · simp [getTagTs, hpath, hts]
    · rcases h with h | h | ⟨v, hv, hns⟩ | ⟨v, hv, hns⟩ | ⟨tss, htss, hparse⟩
      · rw [hpath] at h; exact absurd h (by simp)
      · rw [hts] at h; exact absurd h (by simp)
      · rw [hpath] at hv
        have hpv : pv = v := by injection hv
        subst hpv
        cases pv with
        | str s => exact absurd rfl (hns s)
        | num q => simp [getTagTs, hpath, hts]
        | bool b => simp [getTagTs, hpath, hts]
        | null => simp [getTagTs, hpath, hts]
        | arr a => simp [getTagTs, hpath, hts]
        | obj o => simp [getTagTs, hpath, hts]
      · rw [hts] at hv
        have htv : tv = v := by injection hv
        subst htv
        cases pv with
        | str s =>
            cases tv with
            | str s' => exact absurd rfl (hns s')
            | num q => simp [getTagTs, hpath, hts]
            | bool b => simp [getTagTs, hpath, hts]
            | null => simp [getTagTs, hpath, hts]
            | arr a => simp [getTagTs, hpath, hts]
            | obj o => simp [getTagTs, hpath, hts]
        | num q => simp [getTagTs, hpath, hts]
        | bool b => simp [getTagTs, hpath, hts]
        | null => simp [getTagTs, hpath, hts]
        | arr a => simp [getTagTs, hpath, hts]
        | obj o => simp [getTagTs, hpath, hts]
      · rw [hts] at htss
        have htv : tv = JValue.str tss := by injection htss
        subst htv
        cases pv with
        | str s => simp [getTagTs, hpath, hts, hparse]
        | num q => simp [getTagTs, hpath, hts]
        | bool b => simp [getTagTs, hpath, hts]
        | null => simp [getTagTs, hpath, hts]
        | arr a => simp [getTagTs, hpath, hts]
        | obj o => simp [getTagTs, hpath, hts]

theorem process_default {c : Corelight} {pts : TSParse} {mp : JObj}
    {og : List Char}
    (h : mp.isEmpty = true ∨
      (getTagTs c.pfx pts mp).2.2 = false ∨
      lookupStr c.tagFields (getTagTs c.pfx pts mp).1 = none ∨
      (∃ headers,
        lookupStr c.tagFields (getTagTs c.pfx pts mp).1 = some headers ∧
        (emitLine (getTagTs c.pfx pts mp).2.1 headers mp).2 = false)) :
    (process c pts mp og).1 = defaultTag := by
  by_cases hemp : mp.isEmpty
  · simp [process, hemp, defaultTag]
  · rcases hg : getTagTs c.pfx pts mp with ⟨tg, tt, ok⟩
    cases ok with
    | false => simp [process, hemp, hg, defaultTag]
    | true =>
        rcases h with h | h | h | ⟨headers, hl, hemit⟩
        · exact absurd h (by simpa using hemp)
        · rw [hg] at h; simp at h
        · rw [hg] at h
          simp only at h
          simp [process, hemp, hg, h, defaultTag]
        · rw [hg] at hl hemit
          simp only at hl hemit
          exact absurd hemit (by simp [emitLine])

theorem processLine_default {c : Corelight} {unm : Decoder} {pts : TSParse}
    {s : List Char}
    (h : '{' ∉ s ∨
      unm (s.dropWhile (fun ch => ch ≠ '{')) = none ∨
      (∃ mp, unm (s.dropWhile (fun ch => ch ≠ '{')) = some mp ∧
        (process c pts mp (s.dropWhile (fun ch => ch ≠ '{'))).1 = defaultTag)) :
    (processLine c unm pts s).1 = defaultTag := by
  by_cases hb : '{' ∈ s
  · rcases h with h | h | ⟨mp, hmp, hd⟩
    · exact absurd hb h
    · simp only [ne_eq, decide_not] at h
      simp [processLine, hb, h, defaultTag]
    · simp only [ne_eq, decide_not] at hmp hd
      simp [processLine, hb, hmp, hd]
  · simp [processLine, hb, defaultTag]

/-! Column-structure lemmas for the emitted line. -/

theorem count_tab_groups (hs : List String) (f : String → List Char)
    (h : ∀ x ∈ hs, '\t' ∉ f x) :
    ((hs.map (fun x => '\t' :: f x)).flatten).count '\t' = hs.length := by
  induction hs with
  | nil => simp
  | cons a tl ih =>
      have hz : (f a).count '\t' = 0 :=
        List.count_eq_zero.mpr (h a (by simp))
      have ht : ∀ x ∈ tl, '\t' ∉ f x := fun x hx => h x (by simp [hx])
      simp [List.count_append, List.count_cons, hz, ih ht]

theorem takeWhile_append_group {pre rest : List Char}
    (hpre : ∀ c ∈ pre, c ≠ '\t')
    (hrest : rest = [] ∨ ∃ tl, rest = '\t' :: tl) :
    (pre ++ rest).takeWhile (fun c => c ≠ '\t') = pre := by
  induction pre with
  | nil =>
      rcases hrest with h | ⟨tl, h⟩ <;> subst h <;> simp [List.takeWhile]
  | cons a tl ih =>
      have ha : a ≠ '\t' := hpre a (by simp)
      have htl : ∀ c ∈ tl, c ≠ '\t' := fun c hc => hpre c (by simp [hc])
      simp [List.takeWhile, ha]
      simpa using ih htl

theorem groups_head_shape (hs : List String) (f : String → List Char) :
    (hs.map (fun x => '\t' :: f x)).flatten = [] ∨
    ∃ tl, (hs.map (fun x => '\t' :: f x)).flatten = '\t' :: tl := by
  cases hs with
  | nil => exact Or.inl (by simp)
  | cons a tl => exact Or.inr ⟨f a ++ (tl.map (fun x => '\t' :: f x)).flatten, by simp⟩

theorem formatEpoch6_no_tab {ns : Int} : '\t' ∉ formatEpoch6 ns := by
  intro h
  rcases formatEpoch6_chars h with h' | h' | h' <;> simp at h'

theorem formatEpoch6_no_brace {ns : Int} : '{' ∉ formatEpoch6 ns := by
  intro h
  rcases formatEpoch6_chars h with h' | h' | h' <;> simp at h'

/-- The category keys of the schema table are pairwise distinct. -/
theorem tagHeaders_keys_nodup : (tagHeaders.map Prod.fst).Nodup := by decide

/-- Every category name in the schema table is non-empty. -/
theorem tagHeaders_keys_ne_empty : ∀ kv ∈ tagHeaders, kv.1 ≠ ("") := by decide

/-! Shared concrete instances used by witnesses and counterexamples.  The
decoders and timestamp parsers below mirror `encoding/json.Unmarshal` and
`time.Parse(time.RFC3339Nano, ·)` exactly on the inputs they are applied
to. -/

/-- A tag allocator that accepts every name with tag 1. -/
def okTagger : String → Except String Nat := fun _ => Except.ok 1

/-- The processor state `NewCorelight` builds from an empty prefix (hence
the default `"zeek"`) and `okTagger`. -/
def corelightZeek : Corelight :=
  ⟨("zeek"), corelightFields ("zeek"), corelightTags ("zeek") okTagger⟩

theorem NewCorelight_zeek :
    NewCorelight ⟨("")⟩ okTagger = Except.ok corelightZeek := by rfl

/-! Claim C1. -/

/-- The per-record silent-failure conditions enumerated by the spec:
empty payload, no brace, decode failure, empty decoded map, missing or
non-string `_path`/`ts`, unparseable timestamp, unregistered tag name, or
line-emission failure. -/
def recFailure (c : Corelight) (unm : Decoder) (pts : TSParse)
    (d : List Char) : Prop :=
  d = [] ∨ '{' ∉ d ∨
  unm (d.dropWhile (fun ch => ch ≠ '{')) = none ∨
  (∃ mp, unm (d.dropWhile (fun ch => ch ≠ '{')) = some mp ∧
    (mp.isEmpty = true ∨
     jlookup mp ("_path") = none ∨
     jlookup mp ("ts") = none ∨
     (∃ v, jlookup mp ("_path") = some v ∧ ∀ s, v ≠ JValue.str s) ∨
     (∃ v, jlookup mp ("ts") = some v ∧ ∀ s, v ≠ JValue.str s) ∨
     (∃ tss, jlookup mp ("ts") = some (JValue.str tss) ∧ pts tss = none) ∨
     lookupStr c.tagFields (getTagTs c.pfx pts mp).1 = none ∨
     (∃ headers,
       lookupStr c.tagFields (getTagTs c.pfx pts mp).1 = some headers ∧
       (emitLine (getTagTs c.pfx pts mp).2.1 headers mp).2 = false)))

theorem processEnt_unchanged_of_recFailure {c : Corelight} {unm : Decoder}
    {pts : TSParse} {ent : Entry} (hfail : recFailure c unm pts ent.Data) :
    processEnt c unm pts (some ent) = some ent := by
  rcases hfail with h | h | h | ⟨mp, hmp, hsub⟩
  · simp [processEnt, h]
  · exact processEnt_unchanged (processLine_default (Or.inl h))
  · exact processEnt_unchanged (processLine_default (Or.inr (Or.inl h)))
  · refine processEnt_unchanged (processLine_default (Or.inr (Or.inr ⟨mp, hmp, ?_⟩)))
    rcases hsub with h | h | h | h | h | h | h | h
    · exact process_default (Or.inl h)
    · refine process_default (Or.inr (Or.inl ?_))
      rw [getTagTs_false_cases (Or.inl h)]
    · refine process_default (Or.inr (Or.inl ?_))
      rw [getTagTs_false_cases (Or.inr (Or.inl h))]
    · refine process_default (Or.inr (Or.inl ?_))
      rw [getTagTs_false_cases (Or.inr (Or.inr (Or.inl h)))]
    · refine process_default (Or.inr (Or.inl ?_))
      rw [getTagTs_false_cases (Or.inr (Or.inr (Or.inr (Or.inl h))))]
    · refine process_default (Or.inr (Or.inl ?_))
      rw [getTagTs_false_cases (Or.inr (Or.inr (Or.inr (Or.inr h))))]
    · exact process_default (Or.inr (Or.inr (Or.inl h)))
    · exact process_default (Or.inr (Or.inr (Or.inr h)))

/-- C1: if any of the per-record failure conditions holds for a record of
a batch — empty payload, no brace byte, JSON decode failure, empty
decoded map, missing or non-string `_path` or `ts`, unparseable
timestamp, a tag name with no registered field list, or line-emission
failure — then that record is returned with tag, timestamp and payload
identical to its input, `Process` returns no error, and every other
record of the batch is still processed in place. -/
theorem C1_failure_passthrough (c : Corelight) (unm : Decoder)
    (pts : TSParse) (ents : List (Option Entry)) (i : Nat) (ent : Entry)
    (hi : ents[i]? = some (some ent))
    (hfail : recFailure c unm pts ent.Data) :
    (Process c unm pts ents).1[i]? = some (some ent) ∧
    (Process c unm pts ents).2 = none ∧
    ∀ j : Nat, (Process c unm pts ents).1[j]? =
      (ents[j]?).map (processEnt c unm pts) := by
  refine ⟨?_, rfl, fun j => by simp [Process, List.getElem?_map]⟩
  simp only [Process, List.getElem?_map, hi, Option.map_some']
  rw [processEnt_unchanged_of_recFailure hfail]

/-- A decoder refusing every payload and a parser refusing every
timestamp; genuine behaviours of the modelled libraries on the inputs
they receive in the witnesses below. -/
def noDecoder : Decoder := fun _ => none

/-- See `noDecoder`. -/
def noParse : TSParse := fun _ => none

/-- A record whose payload has no brace byte. -/
def entPlain : Entry := ⟨0, 0, ("abc").toList⟩

/-- Witness for C1 at a concrete batch: a brace-free payload is returned
untouched and the batch map is intact. -/
theorem C1_failure_passthrough_witness :
    (Process corelightZeek noDecoder noParse [some entPlain]).1[0]? =
      some (some entPlain) ∧
    (Process corelightZeek noDecoder noParse [some entPlain]).2 = none ∧
    ∀ j : Nat, (Process corelightZeek noDecoder noParse [some entPlain]).1[j]? =
      (([some entPlain] : List (Option Entry))[j]?).map
        (processEnt corelightZeek noDecoder noParse) :=
  C1_failure_passthrough corelightZeek noDecoder noParse [some entPlain] 0
    entPlain (by rfl) (Or.inr (Or.inl (by decide)))

/-! Claims C5 and C4. -/

/-- C5: `Process` never returns an error, preserves batch length and
order (the entry at every index of the output is the in-place processing
of the entry at the same index of the input, nil entries included), and
returns an empty batch immediately unchanged. -/
theorem C5_batch_shape (c : Corelight) (unm : Decoder) (pts : TSParse)
    (ents : List (Option Entry)) :
    (Process c unm pts ents).2 = none ∧
    (Process c unm pts ents).1.length = ents.length ∧
    (∀ j : Nat, (Process c unm pts ents).1[j]? =
      (ents[j]?).map (processEnt c unm pts)) ∧
    processEnt c unm pts none = none ∧
    (ents = [] → Process c unm pts ents = ([], none)) := by
  refine ⟨rfl, by simp [Process], fun j => by simp [Process, List.getElem?_map],
    rfl, ?_⟩
  intro h
  subst h
  rfl

/-- Witness for C5 at a concrete batch. -/
theorem C5_batch_shape_witness :
    (Process corelightZeek noDecoder noParse []).2 = none ∧
    (Process corelightZeek noDecoder noParse []).1.length =
      ([] : List (Option Entry)).length ∧
    (∀ j : Nat, (Process corelightZeek noDecoder noParse []).1[j]? =
      (([] : List (Option Entry))[j]?).map
        (processEnt corelightZeek noDecoder noParse)) ∧
    processEnt corelightZeek noDecoder noParse none = none ∧
    (([] : List (Option Entry)) = [] →
      Process corelightZeek noDecoder noParse [] = ([], none)) :=
  C5_batch_shape corelightZeek noDecoder noParse []

/-- C4: the per-record rewrite is all-or-nothing — either the entry is
returned unchanged, or the tag is set to the resolved numeric identifier,
the timestamp to the parsed value and the payload to the emitted line,
all three together. -/
theorem C4_rewrite_atomic (c : Corelight) (unm : Decoder) (pts : TSParse)
    (ent : Entry) :
    processEnt c unm pts (some ent) = some ent ∨
    ∃ tag t line tv headers mp,
      processLine c unm pts ent.Data = (tag, t, line) ∧ tag ≠ defaultTag ∧
      lookupStr c.tags tag = some tv ∧
      lookupStr c.tagFields tag = some headers ∧
      unm (ent.Data.dropWhile (fun ch => ch ≠ '{')) = some mp ∧
      line = (emitLine t headers mp).1 ∧
      processEnt c unm pts (some ent) = some ⟨tv, t, line⟩ := by
  by_cases hemp : ent.Data.isEmpty
  · exact Or.inl (by simp [processEnt, hemp])
  · rcases hp : processLine c unm pts ent.Data with ⟨tag, t, line⟩
    by_cases htag : tag = defaultTag
    · subst htag
      exact Or.inl (processEnt_unchanged (by rw [hp]))
    · rcases hltags : lookupStr c.tags tag with _ | tv
      · left
        unfold processEnt
        simp [hemp, hp, htag, hltags]
      · rcases processLine_success_eq hp htag with ⟨hb, mp, hmp, hproc⟩
        rcases process_success_eq hproc htag with
          ⟨hne, tagval, tss, headers, h1, h2, h3, h4, h5, h6⟩
        exact Or.inr ⟨tag, t, line, tv, headers, mp, rfl, htag, hltags, h5,
          hmp, h6,
          processEnt_rewrite (by simpa using hemp) hp htag hltags⟩

/-! Claims C6, C8 and C9. -/

/-- C6: if tag negotiation fails for any category, `NewCorelight` aborts
with that failure surfaced as an error; no `Corelight` value (and hence no
registry, partial or otherwise) is produced. -/
theorem C6_init_failure_aborts (cfg : CorelightConfig)
    (tagger : String → Except String Nat) (k v e : String)
    (hmem : (k, v) ∈ tagHeaders)
    (herr : tagger ((if cfg.pfx = "" then defaultPfx else cfg.pfx) ++ k) =
      Except.error e) :
    (∃ e', NewCorelight cfg tagger = Except.error e') ∧
    ∀ c, NewCorelight cfg tagger ≠ Except.ok c := by
  rcases buildTables_error_of_mem hmem herr with ⟨e', h'⟩
  have hmain : NewCorelight cfg tagger = Except.error e' := by
    unfold NewCorelight
    dsimp only
    rw [h']
  exact ⟨⟨e', hmain⟩, fun c hc => by rw [hmain] at hc; exact Except.noConfusion hc⟩

/-- A tag allocator that rejects the conn tag name; concrete instance for
the C6 witness. -/
def rejectConnTagger : String → Except String Nat := fun s =>
  if s = ("zeekconn") then Except.error ("no tag space") else Except.ok 1

/-- Witness for C6: with a tagger failing on `zeekconn`, construction
fails and no processor is produced. -/
theorem C6_init_failure_aborts_witness :
    (∃ e', NewCorelight ⟨("")⟩ rejectConnTagger = Except.error e') ∧
    ∀ c, NewCorelight ⟨("")⟩ rejectConnTagger ≠ Except.ok c :=
  C6_init_failure_aborts ⟨("")⟩ rejectConnTagger ("conn")
    ("ts,uid,id.orig_h,id.orig_p,id.resp_h,id.resp_p,proto,service,duration,id.orig_ip_bytes,id.resp_ip_bytes,conn_state,local_orig,local_resp,missed_bytes,history,id.orig_pkts,id.orig_ip_bytes,id.resp_pkts,id.resp_ip_bytes,tunnel_parents,vlan")
    ("no tag space") (List.Mem.head _) (by rfl)

/-- C8: tag names are always the (defaulted) prefix concatenated with the
category: the config loader and `init` default an empty prefix to
`"zeek"`; every key of either registry table is `prefix ++ category`;
every tag computed for a record is `prefix ++ _path`; and the prefix
never influences which field list a category is bound to. -/
theorem C8_tagname_prefix (cfg : CorelightConfig)
    (tagger : String → Except String Nat) (c : Corelight)
    (hok : NewCorelight cfg tagger = Except.ok c) :
    (∀ cc : CorelightConfig, (CorelightLoadConfig cc).pfx =
      if cc.pfx = "" then defaultPfx else cc.pfx) ∧
    c.pfx = (if cfg.pfx = "" then defaultPfx else cfg.pfx) ∧
    (∀ tn fl, lookupStr c.tagFields tn = some fl →
      ∃ kv, kv ∈ tagHeaders ∧ tn = c.pfx ++ kv.1 ∧ fl = splitOnComma kv.2) ∧
    (∀ tn tv, lookupStr c.tags tn = some tv →
      ∃ kv, kv ∈ tagHeaders ∧ tn = c.pfx ++ kv.1) ∧
    (∀ pts mp tag t, getTagTs c.pfx pts mp = (tag, t, true) →
      ∃ tagval, jlookup mp ("_path") = some (JValue.str tagval) ∧
        tag = c.pfx ++ tagval) ∧
    (∀ p₁ p₂ k v, (k, v) ∈ tagHeaders →
      lookupStr (corelightFields p₁) (p₁ ++ k) = some (splitOnComma v) ∧
      lookupStr (corelightFields p₂) (p₂ ++ k) = some (splitOnComma v)) := by
  rcases NewCorelight_ok_eq hok with ⟨hp, hf, ht⟩
  refine ⟨?_, hp, ?_, ?_, ?_, ?_⟩
  · intro cc
    by_cases hcc : cc.pfx = ("") <;> simp [CorelightLoadConfig, hcc]
  · intro tn fl hlk
    rw [hf] at hlk
    have hlk' : lookupStr (tagHeaders.map
        (fun kv => (c.pfx ++ kv.1, splitOnComma kv.2))) tn = some fl := by
      simpa [corelightFields] using hlk
    rcases lookupStr_mapped_mem (fun kv => splitOnComma kv.2) hlk'
      with ⟨kv, h1, h2, h3⟩
    exact ⟨kv, h1, h2, h3⟩
  · intro tn tv hlk
    rw [ht] at hlk
    have hlk' : lookupStr (tagHeaders.map
        (fun kv => (c.pfx ++ kv.1, tagValue tagger (c.pfx ++ kv.1)))) tn =
        some tv := by
      simpa [corelightTags] using hlk
    rcases lookupStr_mapped_mem
      (fun kv => tagValue tagger (c.pfx ++ kv.1)) hlk' with ⟨kv, h1, h2, h3⟩
    exact ⟨kv, h1, h2⟩
  · intro pts mp tag t hg
    rcases getTagTs_true_eq hg with ⟨tagval, tss, h1, h2, h3, h4⟩
    exact ⟨tagval, h1, h4⟩
  · intro p₁ p₂ k v hmem
    exact ⟨lookupStr_mapped (fun kv => splitOnComma kv.2)
        tagHeaders_keys_nodup hmem,
      lookupStr_mapped (fun kv => splitOnComma kv.2)
        tagHeaders_keys_nodup hmem⟩

/-- Witness for C8 at the concrete default-prefix construction. -/
theorem C8_tagname_prefix_witness :
    (∀ cc : CorelightConfig, (CorelightLoadConfig cc).pfx =
      if cc.pfx = "" then defaultPfx else cc.pfx) ∧
    corelightZeek.pfx = (if ("" : String) = "" then defaultPfx else ("")) ∧
    (∀ tn fl, lookupStr corelightZeek.tagFields tn = some fl →
      ∃ kv, kv ∈ tagHeaders ∧ tn = corelightZeek.pfx ++ kv.1 ∧
        fl = splitOnComma kv.2) ∧
    (∀ tn tv, lookupStr corelightZeek.tags tn = some tv →
      ∃ kv, kv ∈ tagHeaders ∧ tn = corelightZeek.pfx ++ kv.1) ∧
    (∀ pts mp tag t, getTagTs corelightZeek.pfx pts mp = (tag, t, true) →
      ∃ tagval, jlookup mp ("_path") = some (JValue.str tagval) ∧
        tag = corelightZeek.pfx ++ tagval) ∧
    (∀ p₁ p₂ k v, (k, v) ∈ tagHeaders →
      lookupStr (corelightFields p₁) (p₁ ++ k) = some (splitOnComma v) ∧
      lookupStr (corelightFields p₂) (p₂ ++ k) = some (splitOnComma v)) :=
  C8_tagname_prefix ⟨("")⟩ okTagger corelightZeek NewCorelight_zeek

/-- The two registry tables of an initialized processor carry the same
key lists. -/
theorem corelight_keys_eq {cfg : CorelightConfig}
    {tagger : String → Except String Nat} {c : Corelight}
    (hok : NewCorelight cfg tagger = Except.ok c) :
    c.tagFields.map Prod.fst = c.tags.map Prod.fst := by
  rcases NewCorelight_ok_eq hok with ⟨hp, hf, ht⟩
  rw [hf, ht]
  simp [corelightFields, corelightTags]

/-- C9: after a successful `NewCorelight`, the tag-id table and the
field-list table have exactly the same keys (state after `init` — with no
further writes in the model, as in the source, which never mutates either
map after construction), and therefore the `tags` lookup in `Process`
succeeds for every non-default tag produced by `processLine`. -/
theorem C9_registry_alignment (cfg : CorelightConfig)
    (tagger : String → Except String Nat) (c : Corelight)
    (hok : NewCorelight cfg tagger = Except.ok c) :
    c.tagFields.map Prod.fst = c.tags.map Prod.fst ∧
    ∀ unm pts s tag t line, processLine c unm pts s = (tag, t, line) →
      tag ≠ defaultTag → ∃ tv, lookupStr c.tags tag = some tv := by
  refine ⟨corelight_keys_eq hok, ?_⟩
  intro unm pts s tag t line hp htag
  rcases processLine_success_eq hp htag with ⟨hb, mp, hmp, hproc⟩
  rcases process_success_eq hproc htag with
    ⟨hne, tagval, tss, headers, h1, h2, h3, h4, h5, h6⟩
  exact lookupStr_isSome_of_keys_eq (corelight_keys_eq hok) h5

/-- Witness for C9 at the concrete default-prefix construction. -/
theorem C9_registry_alignment_witness :
    corelightZeek.tagFields.map Prod.fst = corelightZeek.tags.map Prod.fst ∧
    ∀ unm pts s tag t line,
      processLine corelightZeek unm pts s = (tag, t, line) →
      tag ≠ defaultTag → ∃ tv, lookupStr corelightZeek.tags tag = some tv :=
  C9_registry_alignment ⟨("")⟩ okTagger corelightZeek NewCorelight_zeek

/-! Claim C10. -/

/-- The keys of an initialized table are never the empty string, so a
successfully looked-up tag is never the default tag. -/
theorem lookup_tag_ne_default {cfg : CorelightConfig}
    {tagger : String → Except String Nat} {c : Corelight}
    (hok : NewCorelight cfg tagger = Except.ok c)
    {tg : String} {headers : List String}
    (hl : lookupStr c.tagFields tg = some headers) : tg ≠ defaultTag := by
  rcases NewCorelight_ok_eq hok with ⟨hp, hf, ht⟩
  rw [hf] at hl
  have hl' : lookupStr (tagHeaders.map
      (fun kv => (c.pfx ++ kv.1, splitOnComma kv.2))) tg = some headers := by
    simpa [corelightFields] using hl
  rcases lookupStr_mapped_mem (fun kv => splitOnComma kv.2) hl'
    with ⟨kv, h1, h2, h3⟩
  intro hdef
  have hk : kv.1 ≠ ("") := tagHeaders_keys_ne_empty kv h1
  apply hk
  have he : c.pfx ++ kv.1 = ("") := by rw [← h2, hdef]; rfl
  have hd : c.pfx.data ++ kv.1.data = ([] : List Char) := congrArg String.data he
  exact String.ext (List.append_eq_nil.mp hd).2

/-- C10: `emitLine` always reports success, so the emission-failure
branch of `process` is dead code: whenever the decoded map is non-empty,
the category and timestamp extraction succeeds and the field list is
registered, `process` returns the emitted line under the non-default tag,
and (for an initialized processor) `Process` rewrites the record. -/
theorem C10_emission_never_fails (ts0 : Int) (headers0 : List String)
    (mp0 : JObj) (_hhd : headers0 ≠ [])
    (cfg : CorelightConfig) (tagger : String → Except String Nat)
    (c : Corelight) (hok : NewCorelight cfg tagger = Except.ok c)
    (unm : Decoder) (pts : TSParse) (ent : Entry) (mp : JObj)
    (tg : String) (t : Int) (headers : List String)
    (hdata : ent.Data.isEmpty = false) (hb : '{' ∈ ent.Data)
    (hdec : unm (ent.Data.dropWhile (fun ch => ch ≠ '{')) = some mp)
    (hne : mp.isEmpty = false)
    (hg : getTagTs c.pfx pts mp = (tg, t, true))
    (hl : lookupStr c.tagFields tg = some headers) :
    (emitLine ts0 headers0 mp0).2 = true ∧
    process c pts mp (ent.Data.dropWhile (fun ch => ch ≠ '{')) =
      (tg, t, (emitLine t headers mp).1) ∧
    ∃ tv, lookupStr c.tags tg = some tv ∧
      processEnt c unm pts (some ent) =
        some ⟨tv, t, (emitLine t headers mp).1⟩ := by
  have htag : tg ≠ defaultTag := lookup_tag_ne_default hok hl
  have hproc : process c pts mp (ent.Data.dropWhile (fun ch => ch ≠ '{')) =
      (tg, t, (emitLine t headers mp).1) := by
    simp [process, hne, hg, hl, emitLine]
  have hpl : processLine c unm pts ent.Data = (tg, t, (emitLine t headers mp).1) := by
    unfold processLine
    rw [if_pos hb]
    dsimp only
    rw [hdec]
    exact hproc
  rcases lookupStr_isSome_of_keys_eq (corelight_keys_eq hok) hl with ⟨tv, htv⟩
  exact ⟨rfl, hproc, tv, htv, processEnt_rewrite hdata hpl htag htv⟩

/-- A decoder and parser mirroring `encoding/json` and RFC3339Nano
parsing on the single well-formed weird-record used by witnesses. -/
def weirdDecoder : Decoder := fun s =>
  if s = ("\x7b\"_path\":\"weird\",\"ts\":\"2021-01-01T00:00:00Z\",\"uid\":\"abc\"\x7d").toList
  then some [(("_path"), JValue.str ("weird")),
             (("ts"), JValue.str ("2021-01-01T00:00:00Z")),
             (("uid"), JValue.str ("abc"))]
  else none

/-- RFC3339Nano parse results for the timestamps appearing in this file:
2021-01-01T00:00:00Z and 2022-01-01T00:00:00Z as epoch nanoseconds. -/
def epochParse : TSParse := fun s =>
  if s = ("2021-01-01T00:00:00Z") then some 1609459200000000000
  else if s = ("2022-01-01T00:00:00Z") then some 1640995200000000000
  else none

/-- A record carrying the well-formed weird JSON payload. -/
def entWeird : Entry :=
  ⟨0, 0, ("\x7b\"_path\":\"weird\",\"ts\":\"2021-01-01T00:00:00Z\",\"uid\":\"abc\"\x7d").toList⟩

/-- Witness for C10 at the concrete weird record. -/
theorem C10_emission_never_fails_witness :
    (emitLine 0 [("ts")] []).2 = true ∧
    process corelightZeek epochParse
        [(("_path"), JValue.str ("weird")),
         (("ts"), JValue.str ("2021-01-01T00:00:00Z")),
         (("uid"), JValue.str ("abc"))]
        (entWeird.Data.dropWhile (fun ch => ch ≠ '{')) =
      (("zeekweird"), 1609459200000000000,
        (emitLine 1609459200000000000
          (splitOnComma ("ts,uid,id.orig_h,id.orig_p,id.resp_h,id.resp_p,name,addl,notice,peer"))
          [(("_path"), JValue.str ("weird")),
           (("ts"), JValue.str ("2021-01-01T00:00:00Z")),
           (("uid"), JValue.str ("abc"))]).1) ∧
    ∃ tv, lookupStr corelightZeek.tags ("zeekweird") = some tv ∧
      processEnt corelightZeek weirdDecoder epochParse (some entWeird) =
        some ⟨tv, 1609459200000000000,
          (emitLine 1609459200000000000
            (splitOnComma ("ts,uid,id.orig_h,id.orig_p,id.resp_h,id.resp_p,name,addl,notice,peer"))
            [(("_path"), JValue.str ("weird")),
             (("ts"), JValue.str ("2021-01-01T00:00:00Z")),
             (("uid"), JValue.str ("abc"))]).1⟩ :=
  C10_emission_never_fails 0 [("ts")] [] (by simp)
    ⟨("")⟩ okTagger corelightZeek NewCorelight_zeek
    weirdDecoder epochParse entWeird
    [(("_path"), JValue.str ("weird")),
     (("ts"), JValue.str ("2021-01-01T00:00:00Z")),
     (("uid"), JValue.str ("abc"))]
    ("zeekweird") 1609459200000000000
    (splitOnComma ("ts,uid,id.orig_h,id.orig_p,id.resp_h,id.resp_p,name,addl,notice,peer"))
    (by rfl) (by decide) (by rfl) (by rfl) (by rfl) (by rfl)

/-! Claim C3. -/

/-- C3: for a field name `f` at an index at least 1 of the field list,
the emitted column is `-` when `f` is absent from the decoded map; the
plain integer (no decimal point) when `f` holds a number with zero
fractional part; the value fixed to exactly five digits after the decimal
point when the fractional part is non-zero; and the `%v` default textual
representation otherwise — with the spec's examples `5 ↦ "5"` and
`5.5 ↦ "5.50000"` evaluated concretely. -/
theorem C3_field_rendering (ts : Int) (headers : List String) (mp : JObj)
    (i : Nat) (f : String) (hi : 1 ≤ i) (hf : headers[i]? = some f) :
    ((headers.drop 1).map (fun h => '\t' :: emitCell mp h))[i - 1]? =
      some ('\t' :: emitCell mp f) ∧
    (emitLine ts headers mp).1 = formatEpoch6 ts ++
      ((headers.drop 1).map (fun h => '\t' :: emitCell mp h)).flatten ∧
    (jlookup mp f = none → emitCell mp f = ['-']) ∧
    (∀ q, jlookup mp f = some (JValue.num q) →
      (q.den = 1 → emitCell mp f = intDecimal q.num ∧ '.' ∉ emitCell mp f) ∧
      (q.den ≠ 1 → emitCell mp f = formatFixed5 q ∧
        fracDigits 5 (emitCell mp f))) ∧
    (∀ v, jlookup mp f = some v → (∀ q, v ≠ JValue.num q) →
      emitCell mp f = (goValueString v).toList) ∧
    emitCell [(("n"), JValue.num 5)] ("n") = ['5'] ∧
    emitCell [(("n"), JValue.num (mkRat 11 2))] ("n") = ("5.50000").toList := by
  refine ⟨?_, rfl, ?_, ?_, ?_, by rfl, by rfl⟩
  · have h1 : 1 + (i - 1) = i := by omega
    simp only [List.getElem?_map, List.getElem?_drop, h1, hf, Option.map_some']
  · intro h
    simp [emitCell, h]
  · intro q hq
    constructor
    · intro hden
      refine ⟨by simp [emitCell, hq, hden], ?_⟩
      simp only [emitCell, hq, hden, if_pos]
      intro hmem
      rcases intDecimal_chars hmem with h' | h' <;> simp at h'
    · intro hden
      refine ⟨by simp [emitCell, hq, hden], ?_⟩
      simp only [emitCell, hq, hden, if_neg]
      exact formatFixed5_shape q
  · intro v hv hnum
    cases v with
    | num q => exact absurd rfl (hnum q)
    | str s => simp [emitCell, hv]
    | bool b => simp [emitCell, hv]
    | null => simp [emitCell, hv]
    | arr a => simp [emitCell, hv]
    | obj o => simp [emitCell, hv]

/-- Witness for C3 at a concrete map and field list. -/
theorem C3_field_rendering_witness :
    (((([("ts"), ("uid")] : List String)).drop 1).map
      (fun h => '\t' :: emitCell [(("uid"), JValue.str ("abc"))] h))[1 - 1]? =
      some ('\t' :: emitCell [(("uid"), JValue.str ("abc"))] ("uid")) ∧
    (emitLine 0 [("ts"), ("uid")] [(("uid"), JValue.str ("abc"))]).1 =
      formatEpoch6 0 ++
      ((([("ts"), ("uid")] : List String).drop 1).map
        (fun h => '\t' :: emitCell [(("uid"), JValue.str ("abc"))] h)).flatten ∧
    (jlookup [(("uid"), JValue.str ("abc"))] ("uid") = none →
      emitCell [(("uid"), JValue.str ("abc"))] ("uid") = ['-']) ∧
    (∀ q, jlookup [(("uid"), JValue.str ("abc"))] ("uid") =
        some (JValue.num q) →
      (q.den = 1 → emitCell [(("uid"), JValue.str ("abc"))] ("uid") =
          intDecimal q.num ∧
        '.' ∉ emitCell [(("uid"), JValue.str ("abc"))] ("uid")) ∧
      (q.den ≠ 1 → emitCell [(("uid"), JValue.str ("abc"))] ("uid") =
          formatFixed5 q ∧
        fracDigits 5 (emitCell [(("uid"), JValue.str ("abc"))] ("uid")))) ∧
    (∀ v, jlookup [(("uid"), JValue.str ("abc"))] ("uid") = some v →
      (∀ q, v ≠ JValue.num q) →
      emitCell [(("uid"), JValue.str ("abc"))] ("uid") =
        (goValueString v).toList) ∧
    emitCell [(("n"), JValue.num 5)] ("n") = ['5'] ∧
    emitCell [(("n"), JValue.num (mkRat 11 2))] ("n") = ("5.50000").toList :=
  C3_field_rendering 0 [("ts"), ("uid")] [(("uid"), JValue.str ("abc"))]
    1 ("uid") (by decide) (by rfl)

/-! Claim C2. -/

theorem splitChar_ne_nil (sep : Char) (l : List Char) :
    splitChar sep l ≠ [] := by
  cases l with
  | nil => simp [splitChar]
  | cons c rest =>
      unfold splitChar
      by_cases h : c = sep
      · simp [h]
      · simp only [h, if_neg, not_false_eq_true]
        rcases hs : splitChar sep rest with _ | ⟨hd, tl⟩ <;> simp

theorem splitOnComma_ne_nil (s : String) : splitOnComma s ≠ [] := by
  simp [splitOnComma, splitChar_ne_nil]

/-- Shared core of the well-formed-record runs: for a known category and
a record that decodes to a non-empty object with string `_path = C` and a
parseable `ts`, `Process`'s per-entry body rewrites the record with the
resolved tag, the parsed timestamp, and the emitted line. -/
theorem processEnt_wellformed {cfg : CorelightConfig}
    {tagger : String → Except String Nat} {c : Corelight}
    (hok : NewCorelight cfg tagger = Except.ok c)
    {C v : String} (hC : (C, v) ∈ tagHeaders)
    {unm : Decoder} {pts : TSParse} {ent : Entry} {mp : JObj}
    {tss : String} {t : Int}
    (hdata : ent.Data.isEmpty = false) (hb : '{' ∈ ent.Data)
    (hdec : unm (ent.Data.dropWhile (fun ch => ch ≠ '{')) = some mp)
    (hne : mp.isEmpty = false)
    (hpath : jlookup mp ("_path") = some (JValue.str C))
    (hts : jlookup mp ("ts") = some (JValue.str tss))
    (hparse : pts tss = some t) :
    ∃ tv, lookupStr c.tags (c.pfx ++ C) = some tv ∧
      processEnt c unm pts (some ent) = some ⟨tv, t,
        formatEpoch6 t ++
        (((splitOnComma v).drop 1).map
          (fun h => '\t' :: emitCell mp h)).flatten⟩ := by
  rcases NewCorelight_ok_eq hok with ⟨hp, hf, ht⟩
  have hg : getTagTs c.pfx pts mp = (c.pfx ++ C, t, true) := by
    simp [getTagTs, hpath, hts, hparse]
  have hl : lookupStr c.tagFields (c.pfx ++ C) = some (splitOnComma v) := by
    rw [hf]
    exact lookupStr_mapped (fun kv => splitOnComma kv.2)
      tagHeaders_keys_nodup hC
  have htag : c.pfx ++ C ≠ defaultTag := lookup_tag_ne_default hok hl
  rcases lookupStr_isSome_of_keys_eq (corelight_keys_eq hok) hl with ⟨tv, htv⟩
  have hproc : process c pts mp (ent.Data.dropWhile (fun ch => ch ≠ '{')) =
      (c.pfx ++ C, t, (emitLine t (splitOnComma v) mp).1) := by
    simp [process, hne, hg, hl, emitLine]
  have hpl : processLine c unm pts ent.Data =
      (c.pfx ++ C, t, (emitLine t (splitOnComma v) mp).1) := by
    unfold processLine
    rw [if_pos hb]
    dsimp only
    rw [hdec]
    exact hproc
  refine ⟨tv, htv, ?_⟩
  have := processEnt_rewrite hdata hpl htag htv
  simpa [emitLine] using this

/-- C2 (amended): for a known category and a well-formed record, the
rewritten payload is the six-fractional-digit epoch column followed by
exactly one tab-plus-cell group per remaining field, with nothing
appended after the last cell; whenever no rendered cell contains a tab
byte, splitting on tabs therefore yields exactly `len(FieldList(C))`
columns and column 0 is the epoch rendering.  (The unconditional
column-count reading of the claim fails when a value's rendering contains
a tab, and the line can end in a tab when the final cell is empty — see
the counterexample.) -/
theorem C2_line_structure (cfg : CorelightConfig)
    (tagger : String → Except String Nat) (c : Corelight)
    (hok : NewCorelight cfg tagger = Except.ok c)
    (C v : String) (hC : (C, v) ∈ tagHeaders)
    (unm : Decoder) (pts : TSParse) (ent : Entry) (mp : JObj)
    (tss : String) (t : Int)
    (hdata : ent.Data.isEmpty = false) (hb : '{' ∈ ent.Data)
    (hdec : unm (ent.Data.dropWhile (fun ch => ch ≠ '{')) = some mp)
    (hne : mp.isEmpty = false)
    (hpath : jlookup mp ("_path") = some (JValue.str C))
    (hts : jlookup mp ("ts") = some (JValue.str tss))
    (hparse : pts tss = some t) :
    ∃ tv, lookupStr c.tags (c.pfx ++ C) = some tv ∧
      processEnt c unm pts (some ent) = some ⟨tv, t,
        formatEpoch6 t ++
        (((splitOnComma v).drop 1).map
          (fun h => '\t' :: emitCell mp h)).flatten⟩ ∧
      ((∀ h ∈ (splitOnComma v).drop 1, '\t' ∉ emitCell mp h) →
        tabColumns (formatEpoch6 t ++
          (((splitOnComma v).drop 1).map
            (fun h => '\t' :: emitCell mp h)).flatten) =
          (splitOnComma v).length ∧
        (formatEpoch6 t ++
          (((splitOnComma v).drop 1).map
            (fun h => '\t' :: emitCell mp h)).flatten).takeWhile
          (fun ch => ch ≠ '\t') = formatEpoch6 t) ∧
      fracDigits 6 (formatEpoch6 t) := by
  rcases processEnt_wellformed hok hC hdata hb hdec hne hpath hts hparse
    with ⟨tv, htv, hpe⟩
  refine ⟨tv, htv, hpe, ?_, formatEpoch6_shape t⟩
  · intro hcells
    have hpre : ∀ ch ∈ formatEpoch6 t, ch ≠ '\t' := by
      intro ch hch hcheq
      exact formatEpoch6_no_tab (hcheq ▸ hch)
    constructor
    · have hcount0 : (formatEpoch6 t).count '\t' = 0 :=
        List.count_eq_zero.mpr formatEpoch6_no_tab
      have hcnt := count_tab_groups ((splitOnComma v).drop 1)
        (emitCell mp) hcells
      have hlen : 1 ≤ (splitOnComma v).length :=
        List.length_pos.mpr (splitOnComma_ne_nil v)
      have hdroplen : ((splitOnComma v).drop 1).length =
          (splitOnComma v).length - 1 := by simp
      unfold tabColumns
      rw [List.count_append, hcount0, hcnt, hdroplen]
      omega
    · exact takeWhile_append_group hpre
        (groups_head_shape ((splitOnComma v).drop 1) (emitCell mp))

/-- Witness for C2 (amended) at the concrete weird record. -/
theorem C2_line_structure_witness :
    ∃ tv, lookupStr corelightZeek.tags (corelightZeek.pfx ++ ("weird")) =
        some tv ∧
      processEnt corelightZeek weirdDecoder epochParse (some entWeird) =
        some ⟨tv, 1609459200000000000,
          formatEpoch6 1609459200000000000 ++
          (((splitOnComma ("ts,uid,id.orig_h,id.orig_p,id.resp_h,id.resp_p,name,addl,notice,peer")).drop 1).map
            (fun h => '\t' :: emitCell
              [(("_path"), JValue.str ("weird")),
               (("ts"), JValue.str ("2021-01-01T00:00:00Z")),
               (("uid"), JValue.str ("abc"))] h)).flatten⟩ ∧
      ((∀ h ∈ (splitOnComma ("ts,uid,id.orig_h,id.orig_p,id.resp_h,id.resp_p,name,addl,notice,peer")).drop 1,
          '\t' ∉ emitCell
            [(("_path"), JValue.str ("weird")),
             (("ts"), JValue.str ("2021-01-01T00:00:00Z")),
             (("uid"), JValue.str ("abc"))] h) →
        tabColumns (formatEpoch6 1609459200000000000 ++
          (((splitOnComma ("ts,uid,id.orig_h,id.orig_p,id.resp_h,id.resp_p,name,addl,notice,peer")).drop 1).map
            (fun h => '\t' :: emitCell
              [(("_path"), JValue.str ("weird")),
               (("ts"), JValue.str ("2021-01-01T00:00:00Z")),
               (("uid"), JValue.str ("abc"))] h)).flatten) =
          (splitOnComma ("ts,uid,id.orig_h,id.orig_p,id.resp_h,id.resp_p,name,addl,notice,peer")).length ∧
        (formatEpoch6 1609459200000000000 ++
          (((splitOnComma ("ts,uid,id.orig_h,id.orig_p,id.resp_h,id.resp_p,name,addl,notice,peer")).drop 1).map
            (fun h => '\t' :: emitCell
              [(("_path"), JValue.str ("weird")),
               (("ts"), JValue.str ("2021-01-01T00:00:00Z")),
               (("uid"), JValue.str ("abc"))] h)).flatten).takeWhile
          (fun ch => ch ≠ '\t') = formatEpoch6 1609459200000000000) ∧
      fracDigits 6 (formatEpoch6 1609459200000000000) :=
  C2_line_structure ⟨("")⟩ okTagger corelightZeek NewCorelight_zeek
    ("weird")
    ("ts,uid,id.orig_h,id.orig_p,id.resp_h,id.resp_p,name,addl,notice,peer")
    (by decide) weirdDecoder epochParse entWeird
    [(("_path"), JValue.str ("weird")),
     (("ts"), JValue.str ("2021-01-01T00:00:00Z")),
     (("uid"), JValue.str ("abc"))]
    ("2021-01-01T00:00:00Z") 1609459200000000000
    (by rfl) (by decide) (by rfl) (by rfl) (by rfl) (by rfl) (by rfl)

/-- The conn field list of the schema table, shared by the C2
counterexample. -/
def connHeaderStr : String := "ts,uid,id.orig_h,id.orig_p,id.resp_h,id.resp_p,proto,service,duration,id.orig_ip_bytes,id.resp_ip_bytes,conn_state,local_orig,local_resp,missed_bytes,history,id.orig_pkts,id.orig_ip_bytes,id.resp_pkts,id.resp_ip_bytes,tunnel_parents,vlan"

/-- The decoded map of the C2 counterexample record: a well-formed conn
object whose `uid` string contains a tab (JSON source `a\tb`) and whose
`vlan` string is empty. -/
def connMap : JObj :=
  [(("_path"), JValue.str ("conn")),
   (("ts"), JValue.str ("2021-01-01T00:00:00Z")),
   (("uid"), JValue.str ("a\tb")),
   (("vlan"), JValue.str (""))]

/-- The C2 counterexample record; its payload is the JSON text whose
`encoding/json` decoding is `connMap`. -/
def entConn : Entry :=
  ⟨0, 0, ("\x7b\"_path\":\"conn\",\"ts\":\"2021-01-01T00:00:00Z\",\"uid\":\"a\\tb\",\"vlan\":\"\"\x7d").toList⟩

/-- A decoder mirroring `encoding/json.Unmarshal` on the conn payload. -/
def connDecoder : Decoder := fun s =>
  if s = entConn.Data then some connMap else none

/-- The rewritten record the transform produces for `entConn`: the uid
cell carries its embedded tab and the empty vlan cell leaves a trailing
tab. -/
def entConnOut : Entry :=
  ⟨1, 1609459200000000000,
   ("1609459200.000000\ta\tb\t-\t-\t-\t-\t-\t-\t-\t-\t-\t-\t-\t-\t-\t-\t-\t-\t-\t-\t-\t").toList⟩

/-- Counterexample to C2 as stated: `conn` is a known category with a
22-entry field list, the record decodes to a non-empty object with string
`_path = "conn"` and a valid RFC 3339 `ts`, yet the rewritten payload
splits into 23 tab-separated columns and ends in a trailing tab. -/
theorem C2_counterexample :
    NewCorelight ⟨("")⟩ okTagger = Except.ok corelightZeek ∧
    (("conn"), connHeaderStr) ∈ tagHeaders ∧
    (splitOnComma connHeaderStr).length = 22 ∧
    connDecoder (entConn.Data.dropWhile (fun ch => ch ≠ '{')) =
      some connMap ∧
    connMap.isEmpty = false ∧
    jlookup connMap ("_path") = some (JValue.str ("conn")) ∧
    jlookup connMap ("ts") = some (JValue.str ("2021-01-01T00:00:00Z")) ∧
    epochParse ("2021-01-01T00:00:00Z") = some 1609459200000000000 ∧
    processEnt corelightZeek connDecoder epochParse (some entConn) =
      some entConnOut ∧
    tabColumns entConnOut.Data = 23 ∧
    entConnOut.Data.getLast? = some '\t' :=
  ⟨NewCorelight_zeek, List.Mem.head _, by rfl, by rfl, by rfl, by rfl,
   by rfl, by rfl, by rfl, by rfl, by rfl⟩

/-! Claim C7. -/

theorem brace_not_mem_groups (hs : List String) (f : String → List Char)
    (h : ∀ x ∈ hs, '{' ∉ f x) :
    '{' ∉ (hs.map (fun x => '\t' :: f x)).flatten := by
  intro hmem
  rw [List.mem_flatten] at hmem
  rcases hmem with ⟨l, hl, hcl⟩
  rcases List.mem_map.mp hl with ⟨x, hx, hfx⟩
  subst hfx
  rcases List.mem_cons.mp hcl with h' | h'
  · exact absurd h' (by decide)
  · exact h x hx h'

/-- C7 (amended): when no rendered cell of a successful transform
contains a brace byte, the emitted payload contains no brace, and
re-running the per-record transform on the rewritten record — under any
decoder and any timestamp parser — leaves it untouched.  (The
unconditional claim fails: a string field value may carry a brace into
the emitted payload, and a value embedding a complete JSON object makes
the re-run rewrite the record — see the counterexample.) -/
theorem C7_rerun_passthrough (cfg : CorelightConfig)
    (tagger : String → Except String Nat) (c : Corelight)
    (hok : NewCorelight cfg tagger = Except.ok c)
    (C v : String) (hC : (C, v) ∈ tagHeaders)
    (unm : Decoder) (pts : TSParse) (ent : Entry) (mp : JObj)
    (tss : String) (t : Int)
    (hdata : ent.Data.isEmpty = false) (hb : '{' ∈ ent.Data)
    (hdec : unm (ent.Data.dropWhile (fun ch => ch ≠ '{')) = some mp)
    (hne : mp.isEmpty = false)
    (hpath : jlookup mp ("_path") = some (JValue.str C))
    (hts : jlookup mp ("ts") = some (JValue.str tss))
    (hparse : pts tss = some t)
    (hcells : ∀ h ∈ (splitOnComma v).drop 1, '{' ∉ emitCell mp h) :
    ∃ tv ent', lookupStr c.tags (c.pfx ++ C) = some tv ∧
      processEnt c unm pts (some ent) = some ent' ∧
      ent'.Data = formatEpoch6 t ++
        (((splitOnComma v).drop 1).map
          (fun h => '\t' :: emitCell mp h)).flatten ∧
      '{' ∉ ent'.Data ∧
      ∀ unm2 pts2, processEnt c unm2 pts2 (some ent') = some ent' := by
  rcases processEnt_wellformed hok hC hdata hb hdec hne hpath hts hparse
    with ⟨tv, htv, hpe⟩
  refine ⟨tv, ⟨tv, t,
    formatEpoch6 t ++
      (((splitOnComma v).drop 1).map
        (fun h => '\t' :: emitCell mp h)).flatten⟩, htv, hpe, rfl, ?_, ?_⟩
  · intro hmem
    rcases List.mem_append.mp hmem with h' | h'
    · exact formatEpoch6_no_brace h'
    · exact brace_not_mem_groups _ _ hcells h'
  · intro unm2 pts2
    by_cases he : (formatEpoch6 t ++
        (((splitOnComma v).drop 1).map
          (fun h => '\t' :: emitCell mp h)).flatten).isEmpty
    · exfalso
      rw [List.isEmpty_iff] at he
      rcases List.append_eq_nil.mp he with ⟨h1, _⟩
      rcases formatEpoch6_shape t with ⟨a, b, heq, hne', _, _, _⟩
      rw [heq] at h1
      rcases List.append_eq_nil.mp h1 with ⟨_, h2⟩
      exact List.cons_ne_nil _ _ h2
    · refine processEnt_unchanged (processLine_default (Or.inl ?_))
      intro hmem
      rcases List.mem_append.mp hmem with h' | h'
      · exact formatEpoch6_no_brace h'
      · exact brace_not_mem_groups _ _ hcells h'

/-- Witness for C7 (amended) at the concrete weird record, whose only
present field value `abc` renders brace-free. -/
theorem C7_rerun_passthrough_witness :
    ∃ tv ent',
      lookupStr corelightZeek.tags (corelightZeek.pfx ++ ("weird")) =
        some tv ∧
      processEnt corelightZeek weirdDecoder epochParse (some entWeird) =
        some ent' ∧
      ent'.Data = formatEpoch6 1609459200000000000 ++
        (((splitOnComma ("ts,uid,id.orig_h,id.orig_p,id.resp_h,id.resp_p,name,addl,notice,peer")).drop 1).map
          (fun h => '\t' :: emitCell
            [(("_path"), JValue.str ("weird")),
             (("ts"), JValue.str ("2021-01-01T00:00:00Z")),
             (("uid"), JValue.str ("abc"))] h)).flatten ∧
      '{' ∉ ent'.Data ∧
      ∀ unm2 pts2, processEnt corelightZeek unm2 pts2 (some ent') =
        some ent' :=
  C7_rerun_passthrough ⟨("")⟩ okTagger corelightZeek NewCorelight_zeek
    ("weird")
    ("ts,uid,id.orig_h,id.orig_p,id.resp_h,id.resp_p,name,addl,notice,peer")
    (by decide) weirdDecoder epochParse entWeird
    [(("_path"), JValue.str ("weird")),
     (("ts"), JValue.str ("2021-01-01T00:00:00Z")),
     (("uid"), JValue.str ("abc"))]
    ("2021-01-01T00:00:00Z") 1609459200000000000
    (by rfl) (by decide) (by rfl) (by rfl) (by rfl) (by rfl) (by rfl)
    (by decide)

/-- The JSON object embedded as a string value in the C7 counterexample;
also the decoded value of that string field. -/
def innerJson : String :=
  "\x7b\"_path\":\"weird\",\"ts\":\"2022-01-01T00:00:00Z\"\x7d"

/-- The C7 counterexample record: a well-formed weird object whose `peer`
string value is itself a complete JSON object (the JSON source escapes
its quotes). -/
def entBrace : Entry :=
  ⟨0, 0, ("\x7b\"_path\":\"weird\",\"ts\":\"2021-01-01T00:00:00Z\",\"peer\":\"\x7b\\\"_path\\\":\\\"weird\\\",\\\"ts\\\":\\\"2022-01-01T00:00:00Z\\\"\x7d\"\x7d").toList⟩

/-- The decoded map of `entBrace`. -/
def mpOuter : JObj :=
  [(("_path"), JValue.str ("weird")),
   (("ts"), JValue.str ("2021-01-01T00:00:00Z")),
   (("peer"), JValue.str innerJson)]

/-- The decoded map of `innerJson`. -/
def mpInner : JObj :=
  [(("_path"), JValue.str ("weird")),
   (("ts"), JValue.str ("2022-01-01T00:00:00Z"))]

/-- A decoder mirroring `encoding/json.Unmarshal` on the two payloads the
C7 counterexample exercises: the original record and the emitted line's
suffix from its first brace, which is exactly `innerJson`. -/
def braceDecoder : Decoder := fun s =>
  if s = entBrace.Data.dropWhile (fun ch => ch ≠ '{') then some mpOuter
  else if s = innerJson.toList then some mpInner
  else none

/-- The rewritten record the first transform produces for `entBrace`:
its payload ends with the embedded JSON object, hence contains a brace. -/
def entBraceOut : Entry :=
  ⟨1, 1609459200000000000,
   ("1609459200.000000\t-\t-\t-\t-\t-\t-\t-\t-\t" ++ innerJson).toList⟩

/-- Counterexample to C7 as stated: the payload produced by a successful
transform can contain a `{` byte (here via a string field whose value is
a complete JSON object), and re-running the transform on that record does
not leave it untouched — it reparses the embedded object and rewrites the
record again with a different timestamp. -/
theorem C7_counterexample :
    processEnt corelightZeek braceDecoder epochParse (some entBrace) =
      some entBraceOut ∧
    entBraceOut ≠ entBrace ∧
    '{' ∈ entBraceOut.Data ∧
    processEnt corelightZeek braceDecoder epochParse (some entBraceOut) ≠
      some entBraceOut ∧
    processEnt corelightZeek braceDecoder epochParse (some entBraceOut) =
      some ⟨1, 1640995200000000000,
        ("1640995200.000000\t-\t-\t-\t-\t-\t-\t-\t-\t-").toList⟩ :=
  ⟨by rfl, by decide, by decide, by decide, by rfl⟩
